import Mathlib

/-
Verification of the py-near transaction pipeline (py_near generation:
account.py, providers.py, models.py, transactions.py, exceptions/provider.py)
against its natural-language specification.

The Python code is shallowly embedded: JSON values become an inductive type,
the error-classification loop and the threshold RPC loop become executable
recursive functions, and the stateful `Account.sign_and_submit_tx` pipeline
becomes explicit state passing.  Concurrency (asyncio) is modelled as an
explicit interleaving of the atomic segments between suspension points.
-/

namespace PyNear

/-! ## JSON values

Model of the parsed JSON dictionaries the provider layer manipulates.
Python dicts are ordered association lists with unique keys. -/

inductive JVal where
  | null : JVal
  | str : String → JVal
  | num : Int → JVal
  | obj : List (String × JVal) → JVal
deriving Repr

/-- Dictionary lookup, `d.get(key)` / `d[key]`. -/
def jLookup : List (String × JVal) → String → Option JVal
  | [], _ => none
  | (k, v) :: rest, key => if k = key then some v else jLookup rest key

/-! ## Error taxonomy (exceptions/provider.py)

A raised provider exception is modelled by the name of its Python class,
the `data` payload handed to its constructor (for `TxExecutionError`
subclasses the constructor sets one attribute per key of a dict payload,
so attribute access is lookup in `data`), and the raw `error_json`. -/

structure PyError where
  cls : String
  data : JVal
  errorJson : JVal

/-- Attribute lookup on a `TxExecutionError`-style exception: the constructor
does `for key, value in data.items(): setattr(self, key, value)`. -/
def pyAttr (e : PyError) (name : String) : Option JVal :=
  match e.data with
  | .obj kvs => jLookup kvs name
  | _ => none

/-- The keys of `ERROR_CODE_TO_EXCEPTION` in exceptions/provider.py. -/
def errorCodes : List String :=
  ["AccessKeyError", "AccountAlreadyExists", "AccountDoesNotExist", "AccountError",
   "ActionError", "ActionErrorKind", "ActionsValidation", "ActorNoPermission",
   "AddKeyAlreadyExists", "BlockError", "CostOverflow", "CreateAccountNotAllowed",
   "DeleteAccountHasRent", "DeleteAccountStaking", "DeleteKeyDoesNotExist", "Expired",
   "FunctionCallError", "InternalError", "InvalidAccessKeyError", "InvalidAccount",
   "InvalidChain", "InvalidNonce", "InvalidReceiverId", "InvalidSignature",
   "InvalidSignerId", "InvalidTransactionError", "InvalidTxError", "JsonProviderError",
   "NewReceiptValidationError", "NoContractCodeError", "NoSyncedBlocksError",
   "NoSyncedYetError", "NotEnoughBalance", "LackBalanceForState", "RentUnpaid",
   "RpcTimeoutError", "SignerDoesNotExist", "TooLargeContractStateError",
   "TransactionError", "TriesToStake", "TriesToUnstake", "TxExecutionError",
   "UnavailableShardError", "UnknownAccessKeyError", "UnknownAccount",
   "UnknownBlockError"]

/-- Models `PROVIDER_CODE_TO_EXCEPTION.get(error_code, InternalError)` in
providers.py: maps the RPC error-envelope cause name to the exception class
raised. -/
def providerCodeToException (code : String) : String :=
  if code = "UNKNOWN_BLOCK" then "UnknownBlockError"
  else if code = "INVALID_ACCOUNT" then "InvalidAccount"
  else if code = "UNKNOWN_ACCOUNT" then "UnknownAccount"
  else if code = "NO_CONTRACT_CODE" then "NoContractCodeError"
  else if code = "TOO_LARGE_CONTRACT_STATE" then "TooLargeContractStateError"
  else if code = "UNAVAILABLE_SHARD" then "UnavailableShardError"
  else if code = "NO_SYNCED_BLOCKS" then "NoSyncedBlocksError"
  else if code = "INTERNAL_ERROR" then "InternalError"
  else if code = "NOT_SYNCED_YET" then "NoSyncedYetError"
  else if code = "INVALID_TRANSACTION" then "InvalidTransactionError"
  else if code = "TIMEOUT_ERROR" then "RPCTimeoutError"
  else if code = "UNKNOWN_ACCESS_KEY" then "UnknownAccessKeyError"
  else "InternalError"

/-- The `while True` unwrapping loop of `JsonProvider.get_error_from_response`:
while the body is a dict, a single-key dict whose key is a recognized error
code replaces the current error by that code's exception built from the value;
a string value that is itself a recognized code becomes the code with an empty
body (the next iteration then returns on the empty dict).  A non-dict body or
an unrecognized or multi-key dict stops the loop. -/
def unwrapError : PyError → JVal → PyError
  | err, .obj [] => err
  | err, .obj [(k, v)] =>
      if errorCodes.contains k then
        match v with
        | .str s =>
            if errorCodes.contains s then { cls := s, data := .obj [], errorJson := err.errorJson }
            else { cls := k, data := .str s, errorJson := err.errorJson }
        | _ => unwrapError { cls := k, data := v, errorJson := err.errorJson } v
      else err
  | err, .obj (_ :: _ :: _) => err
  | err, _ => err

/-- Models `JsonProvider.get_error_from_response`: reads the error envelope
`{"error": {"cause": {"name": code}, "data": body}}`, picks the provider-level
exception for the cause name, then iteratively unwraps the nested body down to
the terminal typed error.  Returns `none` when the response has no `"error"`
key (the Python function falls through and returns `None`); a malformed
envelope (no `"data"` key, or a non-dict `"error"`) raises in Python and is
modelled as `none` as well. -/
def get_error_from_response (content : JVal) : Option PyError :=
  match content with
  | .obj kvs =>
      match jLookup kvs "error" with
      | some (.obj ekvs) =>
          let errorCode : String :=
            match jLookup ekvs "cause" with
            | some (.obj ckvs) =>
                match jLookup ckvs "name" with
                | some (.str s) => s
                | _ => ""
            | _ => ""
          match jLookup ekvs "data" with
          | some body =>
              some (unwrapError
                { cls := providerCodeToException errorCode, data := body,
                  errorJson := .obj ekvs } body)
          | none => none
      | _ => none
  | _ => none

/-- The mock RPC response of the error-classification claim:
`error.cause.name = "INVALID_TRANSACTION"` with nested data
`{"InvalidNonce": {"tx_nonce": 5, "ak_nonce": 7}}`. -/
def invalidNonceResponse : JVal :=
  .obj [("error", .obj
    [("cause", .obj [("name", .str "INVALID_TRANSACTION")]),
     ("data", .obj [("InvalidNonce", .obj
        [("tx_nonce", .num 5), ("ak_nonce", .num 7)])])])]

/-- Python truthiness of a JSON value (`if not content`). -/
def jTruthy : JVal → Bool
  | .null => false
  | .str s => s ≠ ""
  | .num n => n ≠ 0
  | .obj kvs => !kvs.isEmpty

/-- Models `JsonProvider.json_rpc`: raises `RpcEmptyResponse` on a falsy response,
classifies the response and raises the typed error when one is found,
otherwise returns `content["result"]`. -/
def json_rpc_outcome (content : JVal) : Except PyError (Option JVal) :=
  if jTruthy content then
    match get_error_from_response content with
    | some e => .error e
    | none =>
        match content with
        | .obj kvs => .ok (jLookup kvs "result")
        | _ => .ok none
  else .error { cls := "RpcEmptyResponse", data := .str "RPC returned empty response",
                errorJson := .null }

/-- C3: on the mock response whose
`error.cause.name` is `INVALID_TRANSACTION` and whose nested data is
`{"InvalidNonce": {"tx_nonce": 5, "ak_nonce": 7}}`, `json_rpc` raises exactly
the `InvalidNonce` exception, with attribute `tx_nonce = 5` and attribute
`ak_nonce = 7`: the nested single-key body is unwrapped to the terminal typed
error rather than a generic `InvalidTransactionError` or `InternalError`. -/
theorem error_classification_invalid_nonce :
    ∃ e : PyError,
      json_rpc_outcome invalidNonceResponse = .error e ∧
      e.cls = "InvalidNonce" ∧
      pyAttr e "tx_nonce" = some (.num 5) ∧
      pyAttr e "ak_nonce" = some (.num 7) := by
  refine ⟨{ cls := "InvalidNonce",
            data := .obj [("tx_nonce", .num 5), ("ak_nonce", .num 7)],
            errorJson := .obj
              [("cause", .obj [("name", .str "INVALID_TRANSACTION")]),
               ("data", .obj [("InvalidNonce", .obj
                  [("tx_nonce", .num 5), ("ak_nonce", .num 7)])])] }, ?_, rfl, rfl, rfl⟩
  simp [json_rpc_outcome, jTruthy, invalidNonceResponse, get_error_from_response,
    jLookup, providerCodeToException, unwrapError, errorCodes]

/-! ## Threshold RPC queries (`JsonProvider.call_rpc_request`)

An endpoint's reply is its parsed JSON body; `hash(json.dumps(x))` hashes the
raw body, so byte-identical replies compare equal and distinct replies are
modelled as distinct values (the hash is treated as injective).  A reply whose
HTTP status was not 200 is wrapped in an error envelope, `"error" in result`;
the `isErr` flag models that test. -/

structure RpcResp where
  body : String
  isErr : Bool
deriving DecidableEq, Repr

/-- Insertion into the `Counter` key order: Python dict keys in first-insertion order. -/
def insertCounterKey (ks : List RpcResp) (r : RpcResp) : List RpcResp :=
  if r ∈ ks then ks else ks ++ [r]

/-- The keys of `Counter(array)` in first-insertion order. -/
def counterKeys (rs : List RpcResp) : List RpcResp := rs.foldl insertCounterKey []

/-- Models `Counter.most_common(1)[0][0]`: the key with the largest count; the sort is
stable and descending, so ties go to the earliest-inserted key.  A later key
displaces the current best only when its count is strictly larger. -/
def bestKey (rs : List RpcResp) : List RpcResp → Option RpcResp → Option RpcResp
  | [], best => best
  | k :: ks, best =>
      match best with
      | none => bestKey rs ks (some k)
      | some b => if rs.count b < rs.count k then bestKey rs ks (some k) else bestKey rs ks (some b)

/-- Models `JsonProvider.most_frequent_by_hash` applied to the accumulated responses:
`none` only on an empty list (where Python raises `IndexError`). -/
def most_frequent_by_hash (rs : List RpcResp) : Option RpcResp :=
  bestKey rs (counterKeys rs) none

/-- Outcome of the broadcast/threshold branch of `call_rpc_request`. -/
inductive RpcOutcome where
  | success : RpcResp → RpcOutcome
  | thresholdNotReached : Nat → Nat → RpcOutcome
  | exhausted : Option RpcResp → RpcOutcome
  | crash : RpcOutcome
deriving DecidableEq, Repr

/-- The inner `for task in done` loop: each completed task's result is
returned immediately when it is a non-error and no real threshold was
requested (`not threshold or threshold <= 1`), otherwise appended to
`responses` (and remembered as the last `result`). -/
def processDone (threshold : Nat) :
    List RpcResp → List RpcResp → Option RpcResp → List RpcResp × Option RpcResp ⊕ RpcResp
  | [], responses, last => .inl (responses, last)
  | r :: rest, responses, _last =>
      if !r.isErr && threshold ≤ 1 then .inr r
      else processDone threshold rest (responses ++ [r]) (some r)

/-- The `while pending` loop of `call_rpc_request` in broadcast/threshold
mode.  `batches` is the sequence of `done` sets delivered by `asyncio.wait`
(tasks complete in an arbitrary order, so the claims quantify over it).
After each batch, if a threshold was requested and any response has arrived,
the modal response group is recomputed and its first member returned once the
group size reaches the threshold; when the endpoints are exhausted the call
raises `RpcEmptyResponse("Threshold not reached: …")` if a threshold was
requested, else returns the last response.  `crash` marks the two spots where
the Python code would raise `IndexError`, both unreachable under the guards.
`thresholdCheck` is the `if responses and threshold:` block run after each
batch: recompute `correct_responses` and return its first member on reaching
the threshold, else carry the recomputed list into the next iteration. -/
def thresholdCheck (threshold : Nat) (responses correct : List RpcResp) :
    List RpcResp ⊕ RpcOutcome :=
  if !responses.isEmpty && 0 < threshold then
    match most_frequent_by_hash responses with
    | none => .inr .crash
    | some m =>
        let correctNew := responses.filter (fun z => z == m)
        if threshold ≤ correctNew.length then
          match correctNew with
          | c :: _ => .inr (.success c)
          | [] => .inr .crash
        else .inl correctNew
  else .inl correct

def call_rpc_request_loop (threshold : Nat) :
    List (List RpcResp) → List RpcResp → List RpcResp → Option RpcResp → RpcOutcome
  | [], _responses, correct, result =>
      if 0 < threshold then .thresholdNotReached correct.length threshold
      else .exhausted result
  | batch :: rest, responses, correct, result =>
      match processDone threshold batch responses result with
      | .inr r => .success r
      | .inl (responses', result') =>
          match thresholdCheck threshold responses' correct with
          | .inr out => out
          | .inl correct' => call_rpc_request_loop threshold rest responses' correct' result'

/-- Models `call_rpc_request` in threshold mode, starting from empty accumulators. -/
def call_rpc_request (batches : List (List RpcResp)) (threshold : Nat) : RpcOutcome :=
  call_rpc_request_loop threshold batches [] [] none

lemma processDone_of_two_le (threshold : Nat) (ht : 2 ≤ threshold) :
    ∀ (batch responses : List RpcResp) (last : Option RpcResp),
      ∃ l', processDone threshold batch responses last = .inl (responses ++ batch, l') := by
  intro batch
  induction batch with
  | nil => intro responses last; exact ⟨last, by simp [processDone]⟩
  | cons r rest ih =>
      intro responses last
      have h1 : ¬ threshold ≤ 1 := by omega
      obtain ⟨l', hl⟩ := ih (responses ++ [r]) (some r)
      exact ⟨l', by simp [processDone, h1, hl]⟩

lemma mem_insertCounterKey {x r : RpcResp} {ks : List RpcResp} :
    x ∈ insertCounterKey ks r ↔ x ∈ ks ∨ x = r := by
  unfold insertCounterKey
  by_cases h : r ∈ ks
  · rw [if_pos h]
    constructor
    · exact Or.inl
    · rintro (hx | rfl)
      · exact hx
      · exact h
  · rw [if_neg h]
    simp

lemma mem_foldl_insertCounterKey {x : RpcResp} :
    ∀ (l acc : List RpcResp), x ∈ l.foldl insertCounterKey acc ↔ x ∈ acc ∨ x ∈ l := by
  intro l
  induction l with
  | nil => simp
  | cons r rest ih =>
      intro acc
      rw [List.foldl_cons, ih, mem_insertCounterKey]
      simp [or_assoc, or_comm]
      tauto

lemma mem_counterKeys {x : RpcResp} {rs : List RpcResp} : x ∈ counterKeys rs ↔ x ∈ rs := by
  unfold counterKeys
  rw [mem_foldl_insertCounterKey]
  simp

lemma bestKey_of_some {rs : List RpcResp} :
    ∀ (ks : List RpcResp) (b : RpcResp), ∃ m, bestKey rs ks (some b) = some m := by
  intro ks
  induction ks with
  | nil => intro b; exact ⟨b, rfl⟩
  | cons k ks ih =>
      intro b
      by_cases h : rs.count b < rs.count k
      · obtain ⟨m, hm⟩ := ih k
        exact ⟨m, by simp [bestKey, h, hm]⟩
      · obtain ⟨m, hm⟩ := ih b
        exact ⟨m, by simp [bestKey, h, hm]⟩

lemma bestKey_mem {rs : List RpcResp} :
    ∀ (ks : List RpcResp) (best : Option RpcResp) (m : RpcResp),
      bestKey rs ks best = some m → m ∈ ks ∨ best = some m := by
  intro ks
  induction ks with
  | nil => intro best m h; exact Or.inr h
  | cons k ks ih =>
      intro best m h
      match best with
      | none =>
          rcases ih (some k) m h with hk | hk
          · exact Or.inl (List.mem_cons_of_mem _ hk)
          · exact Or.inl (by simp at hk; simp [hk])
      | some b =>
          by_cases hc : rs.count b < rs.count k
          · simp only [bestKey, if_pos hc] at h
            rcases ih (some k) m h with hk | hk
            · exact Or.inl (List.mem_cons_of_mem _ hk)
            · exact Or.inl (by simp at hk; simp [hk])
          · simp only [bestKey, if_neg hc] at h
            rcases ih (some b) m h with hk | hk
            · exact Or.inl (List.mem_cons_of_mem _ hk)
            · exact Or.inr hk

lemma bestKey_max {rs : List RpcResp} :
    ∀ (ks : List RpcResp) (best : Option RpcResp) (m : RpcResp),
      bestKey rs ks best = some m →
      (∀ k ∈ ks, rs.count k ≤ rs.count m) ∧
      (∀ b, best = some b → rs.count b ≤ rs.count m) := by
  intro ks
  induction ks with
  | nil =>
      intro best m h
      refine ⟨by simp, ?_⟩
      intro b hb
      rw [hb] at h
      simp only [bestKey, Option.some.injEq] at h
      rw [h]
  | cons k ks ih =>
      intro best m h
      match best with
      | none =>
          obtain ⟨hks, hbest⟩ := ih (some k) m h
          refine ⟨?_, by simp⟩
          intro k' hk'
          rcases List.mem_cons.1 hk' with rfl | hk'
          · exact hbest k' rfl
          · exact hks k' hk'
      | some b =>
          by_cases hc : rs.count b < rs.count k
          · simp only [bestKey, if_pos hc] at h
            obtain ⟨hks, hbest⟩ := ih (some k) m h
            constructor
            · intro k' hk'
              rcases List.mem_cons.1 hk' with rfl | hk'
              · exact hbest k' rfl
              · exact hks k' hk'
            · intro b' hb'
              obtain rfl : b = b' := Option.some.inj hb'
              exact le_of_lt (lt_of_lt_of_le hc (hbest k rfl))
          · simp only [bestKey, if_neg hc] at h
            obtain ⟨hks, hbest⟩ := ih (some b) m h
            constructor
            · intro k' hk'
              rcases List.mem_cons.1 hk' with rfl | hk'
              · exact le_trans (Nat.le_of_not_lt hc) (hbest b rfl)
              · exact hks k' hk'
            · intro b' hb'
              obtain rfl : b = b' := Option.some.inj hb'
              exact hbest b rfl

lemma bestKey_dominant {rs : List RpcResp} {x : RpcResp} :
    ∀ (ks : List RpcResp) (best : Option RpcResp),
      (∀ k ∈ ks, k = x ∨ rs.count k < rs.count x) →
      (x ∈ ks ∨ best = some x) →
      (∀ b, best = some b → b = x ∨ rs.count b < rs.count x) →
      bestKey rs ks best = some x := by
  intro ks
  induction ks with
  | nil =>
      intro best _ hx _
      rcases hx with h | h
      · exact absurd h (List.not_mem_nil x)
      · rw [h]; rfl
  | cons k ks ih =>
      intro best hdom hx hbest
      have hdom' : ∀ k' ∈ ks, k' = x ∨ rs.count k' < rs.count x :=
        fun k' hk' => hdom k' (List.mem_cons_of_mem _ hk')
      match best with
      | none =>
          show bestKey rs ks (some k) = some x
          apply ih (some k) hdom'
          · rcases hx with hx | hx
            · rcases List.mem_cons.1 hx with rfl | hx
              · exact Or.inr rfl
              · exact Or.inl hx
            · exact absurd hx (by simp)
          · intro b hb
            obtain rfl : k = b := Option.some.inj hb
            exact hdom k (List.mem_cons_self _ _)
      | some b =>
          have hbx : b = x ∨ rs.count b < rs.count x := hbest b rfl
          by_cases hc : rs.count b < rs.count k
          · simp only [bestKey, if_pos hc]
            apply ih (some k) hdom'
            · rcases hdom k (List.mem_cons_self _ _) with rfl | hk
              · exact Or.inr rfl
              · rcases hbx with rfl | hbx
                · exact absurd (lt_trans hc hk) (lt_irrefl _)
                · rcases hx with hx | hx
                  · rcases List.mem_cons.1 hx with rfl | hx
                    · exact absurd hk (lt_irrefl _)
                    · exact Or.inl hx
                  · obtain rfl : b = x := Option.some.inj hx
                    exact absurd hbx (lt_irrefl _)
            · intro b' hb'
              obtain rfl : k = b' := Option.some.inj hb'
              exact hdom k (List.mem_cons_self _ _)
          · simp only [bestKey, if_neg hc]
            apply ih (some b) hdom'
            · rcases hbx with rfl | hbx
              · exact Or.inr rfl
              · rcases hx with hx | hx
                · rcases List.mem_cons.1 hx with rfl | hx
                  · exact absurd (lt_of_le_of_lt (Nat.le_of_not_lt hc) hbx) (lt_irrefl _)
                  · exact Or.inl hx
                · exact Or.inr hx
            · intro b' hb'
              obtain rfl : b = b' := Option.some.inj hb'
              exact hbx

lemma most_frequent_of_ne_nil {rs : List RpcResp} (h : rs ≠ []) :
    ∃ m, most_frequent_by_hash rs = some m := by
  obtain ⟨z, hz⟩ := List.exists_mem_of_ne_nil rs h
  have hzk : z ∈ counterKeys rs := mem_counterKeys.2 hz
  unfold most_frequent_by_hash
  match hck : counterKeys rs with
  | [] => rw [hck] at hzk; exact absurd hzk (List.not_mem_nil z)
  | k :: ks =>
      show ∃ m, bestKey rs (k :: ks) none = some m
      have : bestKey rs (k :: ks) none = bestKey rs ks (some k) := rfl
      rw [this]
      exact bestKey_of_some ks k

lemma most_frequent_mem {rs : List RpcResp} {m : RpcResp}
    (h : most_frequent_by_hash rs = some m) : m ∈ rs := by
  unfold most_frequent_by_hash at h
  rcases bestKey_mem (counterKeys rs) none m h with hk | hk
  · exact mem_counterKeys.1 hk
  · exact absurd hk (by simp)

lemma most_frequent_max {rs : List RpcResp} {m : RpcResp}
    (h : most_frequent_by_hash rs = some m) : ∀ y, rs.count y ≤ rs.count m := by
  intro y
  by_cases hy : y ∈ rs
  · exact (bestKey_max (counterKeys rs) none m h).1 y (mem_counterKeys.2 hy)
  · rw [List.count_eq_zero.2 hy]
    exact Nat.zero_le _

lemma most_frequent_dominant {rs : List RpcResp} {x : RpcResp} (hx : x ∈ rs)
    (hdom : ∀ y ∈ rs, y ≠ x → rs.count y < rs.count x) :
    most_frequent_by_hash rs = some x := by
  apply bestKey_dominant (counterKeys rs) none
  · intro k hk
    by_cases hkx : k = x
    · exact Or.inl hkx
    · exact Or.inr (hdom k (mem_counterKeys.1 hk) hkx)
  · exact Or.inl (mem_counterKeys.2 hx)
  · intro b hb; exact absurd hb (by simp)

lemma filter_beq_length (R : List RpcResp) (m : RpcResp) :
    (R.filter (fun z => z == m)).length = R.count m := by
  rw [← List.countP_eq_length_filter]; rfl

lemma filter_beq_all {R : List RpcResp} {m z : RpcResp}
    (hz : z ∈ R.filter (fun w => w == m)) : z = m := by
  have := List.of_mem_filter hz
  exact eq_of_beq this

lemma thresholdCheck_of_nil {t : Nat} {c : List RpcResp} :
    thresholdCheck t [] c = .inl c := by
  simp [thresholdCheck]

lemma thresholdCheck_fire {t : Nat} {R c : List RpcResp} {m : RpcResp}
    (ht : 0 < t) (hm : most_frequent_by_hash R = some m) (hcount : t ≤ R.count m) :
    thresholdCheck t R c = .inr (.success m) := by
  have hmem : m ∈ R := most_frequent_mem hm
  have hne : R ≠ [] := List.ne_nil_of_mem hmem
  have hEmpty : R.isEmpty = false := by
    cases R with
    | nil => exact absurd rfl hne
    | cons _ _ => rfl
  have hlen : t ≤ (R.filter (fun z => z == m)).length := by
    rw [filter_beq_length]; exact hcount
  unfold thresholdCheck
  rw [hEmpty, hm]
  simp only [Bool.not_false, Bool.true_and, if_pos (decide_eq_true ht), decide_eq_true ht]
  rw [if_pos hlen]
  match hfil : R.filter (fun z => z == m) with
  | [] =>
      rw [hfil] at hlen
      simp at hlen
      omega
  | cc :: cs =>
      have hcc : cc = m := filter_beq_all (hfil ▸ List.mem_cons_self cc cs)
      rw [hcc]
      simp

lemma thresholdCheck_cont {t : Nat} {R c : List RpcResp} {m : RpcResp}
    (ht : 0 < t) (hne : R ≠ []) (hm : most_frequent_by_hash R = some m)
    (hcount : R.count m < t) :
    thresholdCheck t R c = .inl (R.filter (fun z => z == m)) := by
  have hEmpty : R.isEmpty = false := by
    cases R with
    | nil => exact absurd rfl hne
    | cons _ _ => rfl
  have hlen : ¬ t ≤ (R.filter (fun z => z == m)).length := by
    rw [filter_beq_length]; omega
  unfold thresholdCheck
  rw [hEmpty, hm]
  simp only [Bool.not_false, Bool.true_and, decide_eq_true ht]
  simp [hlen]

lemma count_sub_of_perm {resp rest full : List RpcResp} (h : (resp ++ rest).Perm full)
    (z : RpcResp) : resp.count z ≤ full.count z := by
  calc resp.count z ≤ resp.count z + rest.count z := Nat.le_add_right _ _
    _ = (resp ++ rest).count z := (List.count_append z resp rest).symm
    _ = full.count z := h.count_eq z

lemma mem_sub_of_perm {resp rest full : List RpcResp} (h : (resp ++ rest).Perm full)
    {z : RpcResp} (hz : z ∈ resp) : z ∈ full :=
  (h.mem_iff).1 (List.mem_append_left rest hz)

lemma count_five_x {x y : RpcResp} (hxy : x ≠ y) : ([x, x, x, y, y]).count x = 3 := by
  simp [List.count_cons, hxy, Ne.symm hxy]

lemma count_five_y {x y : RpcResp} (hxy : x ≠ y) : ([x, x, x, y, y]).count y = 2 := by
  simp [List.count_cons, hxy, Ne.symm hxy]

lemma count_five_le {x y z : RpcResp} (hxy : x ≠ y) : ([x, x, x, y, y]).count z ≤ 3 := by
  by_cases hzx : z = x
  · subst hzx; rw [count_five_x hxy]
  · by_cases hzy : z = y
    · subst hzy; rw [count_five_y hxy]; omega
    · have : z ∉ [x, x, x, y, y] := by simp [hzx, hzy]
      rw [List.count_eq_zero.2 this]; omega

lemma mem_five {x y z : RpcResp} (hz : z ∈ [x, x, x, y, y]) : z = x ∨ z = y := by
  simp only [List.mem_cons, List.not_mem_nil, or_false] at hz
  tauto

/-- Threshold 3: with three copies of `x` and two of `y` among the endpoint
responses, the loop always returns `x`, whatever the completion order and the
batching delivered by `asyncio.wait`. -/
lemma loop3_success {x y : RpcResp} (hxy : x ≠ y) :
    ∀ (batches : List (List RpcResp)) (resp correct : List RpcResp) (last : Option RpcResp),
      (resp ++ batches.flatten).Perm [x, x, x, y, y] →
      resp.count x ≤ 2 →
      call_rpc_request_loop 3 batches resp correct last = .success x := by
  intro batches
  induction batches with
  | nil =>
      intro resp correct last hperm hcount
      have hp : resp.Perm [x, x, x, y, y] := by simpa using hperm
      rw [hp.count_eq x, count_five_x hxy] at hcount
      omega
  | cons batch rest ih =>
      intro resp correct last hperm hcount
      obtain ⟨l', hl⟩ := processDone_of_two_le 3 (by omega) batch resp last
      have hperm' : ((resp ++ batch) ++ rest.flatten).Perm [x, x, x, y, y] := by
        rw [List.append_assoc]
        simpa using hperm
      simp only [call_rpc_request_loop, hl]
      by_cases hR : resp ++ batch = []
      · rw [hR, thresholdCheck_of_nil]
        apply ih [] correct l' (by simpa [hR] using hperm')
        simp
      · obtain ⟨m, hm⟩ := most_frequent_of_ne_nil hR
        have hmem5 : m ∈ [x, x, x, y, y] := mem_sub_of_perm hperm' (most_frequent_mem hm)
        by_cases hfire : 3 ≤ (resp ++ batch).count m
        · have hmx : m = x := by
            rcases mem_five hmem5 with rfl | rfl
            · rfl
            · have := count_sub_of_perm hperm' m
              rw [count_five_y hxy] at this
              omega
          rw [thresholdCheck_fire (by omega) hm hfire, hmx]
        · rw [thresholdCheck_cont (by omega) hR hm (by omega)]
          apply ih _ _ l' hperm'
          by_cases hcx : (resp ++ batch).count x ≤ 2
          · exact hcx
          · have hmax := most_frequent_max hm x
            omega

/-- Threshold 4: with at most three byte-identical copies among the five
responses, no check ever fires and the loop ends by raising
`RpcEmptyResponse("Threshold not reached: 3/4")`. -/
lemma loop4_fail {x y : RpcResp} (hxy : x ≠ y) :
    ∀ (batches : List (List RpcResp)) (resp correct : List RpcResp) (last : Option RpcResp),
      (resp ++ batches.flatten).Perm [x, x, x, y, y] →
      batches ≠ [] →
      call_rpc_request_loop 4 batches resp correct last = .thresholdNotReached 3 4 := by
  intro batches
  induction batches with
  | nil => intro _ _ _ _ h; exact absurd rfl h
  | cons batch rest ih =>
      intro resp correct last hperm _
      obtain ⟨l', hl⟩ := processDone_of_two_le 4 (by omega) batch resp last
      have hperm' : ((resp ++ batch) ++ rest.flatten).Perm [x, x, x, y, y] := by
        rw [List.append_assoc]
        simpa using hperm
      simp only [call_rpc_request_loop, hl]
      by_cases hR : resp ++ batch = []
      · rw [hR, thresholdCheck_of_nil]
        have hperm'' : rest.flatten.Perm [x, x, x, y, y] := by simpa [hR] using hperm'
        apply ih [] correct l' (by simpa using hperm'')
        intro hrest
        rw [hrest] at hperm''
        exact absurd hperm''.length_eq (by simp)
      · obtain ⟨m, hm⟩ := most_frequent_of_ne_nil hR
        have hle3 : (resp ++ batch).count m ≤ 3 :=
          le_trans (count_sub_of_perm hperm' m) (count_five_le hxy)
        rw [thresholdCheck_cont (by omega) hR hm (by omega)]
        by_cases hrest : rest = []
        · subst hrest
          have hpermR : (resp ++ batch).Perm [x, x, x, y, y] := by
            simpa using hperm'
          have hcx : (resp ++ batch).count x = 3 := by
            rw [hpermR.count_eq x, count_five_x hxy]
          have hmx : most_frequent_by_hash (resp ++ batch) = some x := by
            apply most_frequent_dominant
            · exact List.count_pos_iff.1 (by omega)
            · intro z hz hzx
              have hz5 : z ∈ [x, x, x, y, y] := mem_sub_of_perm hperm' hz
              rcases mem_five hz5 with rfl | rfl
              · exact absurd rfl hzx
              · have : (resp ++ batch).count z = 2 := by
                  rw [hpermR.count_eq z, count_five_y hxy]
                omega
          have hmeq : m = x := by
            rw [hm] at hmx
            exact Option.some.inj hmx
          subst hmeq
          simp only [call_rpc_request_loop]
          rw [if_pos (by omega), filter_beq_length, hcx]
        · exact ih _ _ l' hperm' hrest

/-- C2: a threshold query over five endpoints, three returning the
byte-identical body `a` and two returning a different body `b`, returns the
majority response at `threshold = 3` and raises threshold-not-reached
(`"Threshold not reached: 3/4"`) at `threshold = 4`, for every completion
order and batching of the endpoint responses. -/
theorem threshold_query_majority (a b : String) (hab : a ≠ b)
    (batches : List (List RpcResp))
    (hperm : batches.flatten.Perm
      [⟨a, false⟩, ⟨a, false⟩, ⟨a, false⟩, ⟨b, false⟩, ⟨b, false⟩]) :
    call_rpc_request batches 3 = .success ⟨a, false⟩ ∧
    call_rpc_request batches 4 = .thresholdNotReached 3 4 := by
  have hxy : (⟨a, false⟩ : RpcResp) ≠ ⟨b, false⟩ := by
    intro h
    exact hab (congrArg RpcResp.body h)
  have hbne : batches ≠ [] := by
    intro h
    rw [h] at hperm
    exact absurd hperm.length_eq (by simp)
  constructor
  · exact loop3_success hxy batches [] [] none (by simpa using hperm) (by simp)
  · exact loop4_fail hxy batches [] [] none (by simpa using hperm) hbne

/-- Witness for C2 at a concrete completion order and batching. -/
theorem threshold_query_majority_witness :
    call_rpc_request [[⟨"a", false⟩, ⟨"b", false⟩], [⟨"b", false⟩, ⟨"a", false⟩],
      [⟨"a", false⟩]] 3 = .success ⟨"a", false⟩ ∧
    call_rpc_request [[⟨"a", false⟩, ⟨"b", false⟩], [⟨"b", false⟩, ⟨"a", false⟩],
      [⟨"a", false⟩]] 4 = .thresholdNotReached 3 4 :=
  threshold_query_majority "a" "b" (by decide) _ (by decide)

/-! ## `TransactionResult.logs` (models.py)

`ReceiptOutcome.logs` is a plain attribute holding a list; the
`TransactionResult.logs` property does `logs = self.transaction_outcome.logs`
— an alias of the stored list, not a copy — and then
`logs.extend(ro.logs)` for each receipt outcome, mutating
`transaction_outcome.logs` in place before returning the alias.  Reading the
property therefore changes the object; the model returns the value together
with the object as it is after the read. -/

structure ReceiptOutcomeM where
  logs : List String
deriving DecidableEq, Repr

structure TransactionResultM where
  transaction_outcome : ReceiptOutcomeM
  receipt_outcome : List ReceiptOutcomeM
deriving DecidableEq, Repr

/-- The `logs` property of `TransactionResult`: value returned and the
object after the in-place `extend`s. -/
def logsProperty (t : TransactionResultM) : List String × TransactionResultM :=
  let value := t.transaction_outcome.logs ++ (t.receipt_outcome.map (fun ro => ro.logs)).flatten
  (value, { t with transaction_outcome := { logs := value } })

/-- C7 fails on the code: on a result with transaction-level logs `["a"]` and
one receipt with logs `["b"]`, the first read of `.logs` returns the correct
concatenation `["a", "b"]` but mutates the stored transaction-outcome logs, so
the object changes and a second read returns `["a", "b", "b"]` — not the same
list.  The accessor is not the pure concatenation the spec states. -/
theorem logs_accessor_mutates :
    (logsProperty ⟨⟨["a"]⟩, [⟨["b"]⟩]⟩).1 = ["a", "b"] ∧
    (logsProperty ⟨⟨["a"]⟩, [⟨["b"]⟩]⟩).2 ≠ ⟨⟨["a"]⟩, [⟨["b"]⟩]⟩ ∧
    (logsProperty (logsProperty ⟨⟨["a"]⟩, [⟨["b"]⟩]⟩).2).1 = ["a", "b", "b"] ∧
    (logsProperty (logsProperty ⟨⟨["a"]⟩, [⟨["b"]⟩]⟩).2).1 ≠
      (logsProperty ⟨⟨["a"]⟩, [⟨["b"]⟩]⟩).1 := by
  refine ⟨rfl, ?_, rfl, ?_⟩ <;> decide

/-! ## Submission paths (providers.py) -/

/-- Models Python's `except SomeClass` test.  Neither `InvalidNonce` nor
`RPCTimeoutError` has subclasses in exceptions/provider.py, so an
`isinstance` check is exactly a class-name comparison. -/
def isInstanceOf (e : PyError) (cls : String) : Bool := e.cls = cls

/-- Models `JsonProvider.send_tx_included`: broadcast with
`wait_until: INCLUDED`; an `InvalidNonce` raised by `json_rpc` is caught,
a warning is logged, and `None` is returned; every other outcome passes
through unchanged.  `rpc` is the outcome of the underlying `json_rpc` call. -/
def send_tx_included (rpc : Except PyError R) : Except PyError (Option R) :=
  match rpc with
  | .ok r => .ok (some r)
  | .error e => if isInstanceOf e "InvalidNonce" then .ok none else .error e

/-- Error raised when `wait_for_trx` runs out of polling attempts. -/
def trxNotFoundError : PyError :=
  { cls := "RPCTimeoutError", data := .str "Transaction not found", errorJson := .null }

/-- Models `JsonProvider.wait_for_trx`: up to `attempts` polls of `get_tx`
(each preceded by `asyncio.sleep(5)`); a poll that raises — `InternalError`
or any other exception — is logged and retried; a returned result (a
`TransactionResult` object, always truthy) is returned at once; exhausting
the budget raises `RPCTimeoutError("Transaction not found")`.  `polls i` is
the outcome of the i-th `get_tx` call. -/
def wait_for_trx (polls : Nat → Except PyError R) : Nat → Nat → Except PyError R
  | 0, _ => .error trxNotFoundError
  | n + 1, i =>
      match polls i with
      | .error _ => wait_for_trx polls n (i + 1)
      | .ok r => .ok r

/-- Python truthiness of an optional string (`if receiver_id and trx_hash`). -/
def pyTruthy : Option String → Bool
  | none => false
  | some s => !s.isEmpty

/-- Models `JsonProvider.send_tx_and_wait`: broadcast with
`broadcast_tx_commit`; on `RPCTimeoutError` fall back to polling by hash when
both `receiver_id` and `trx_hash` are truthy, re-raise otherwise; every other
error propagates unchanged. -/
def send_tx_and_wait (rpc : Except PyError R) (trxHash receiverId : Option String)
    (polls : Nat → Except PyError R) : Except PyError R :=
  match rpc with
  | .ok r => .ok r
  | .error e =>
      if isInstanceOf e "RPCTimeoutError" then
        if pyTruthy receiverId && pyTruthy trxHash then wait_for_trx polls 6 0
        else .error e
      else .error e

lemma wait_for_trx_all_fail {R : Type} (polls : Nat → Except PyError R) :
    ∀ (n i : Nat), (∀ j, i ≤ j → j < i + n → ∃ err, polls j = .error err) →
      wait_for_trx polls n i = .error trxNotFoundError := by
  intro n
  induction n with
  | zero => intro i _; rfl
  | succ n ih =>
      intro i hfail
      obtain ⟨err, herr⟩ := hfail i (le_refl i) (by omega)
      show wait_for_trx polls (n + 1) i = .error trxNotFoundError
      unfold wait_for_trx
      rw [herr]
      exact ih (i + 1) (fun j hj1 hj2 => hfail j (by omega) (by omega))

/-- The `InvalidNonce` instance used as the concrete counterexample input. -/
def invalidNonceErr : PyError :=
  { cls := "InvalidNonce", data := .obj [("tx_nonce", .num 5), ("ak_nonce", .num 7)],
    errorJson := .null }

/-- C5 fails on the code: `send_tx_included` catches `InvalidNonce`, logs a
warning, and returns `None` — the invalid-nonce error is suppressed and
converted into a non-error return value instead of propagating unchanged. -/
theorem send_tx_included_swallows_invalid_nonce :
    send_tx_included (Except.error invalidNonceErr : Except PyError JVal) = .ok none ∧
    send_tx_included (Except.error invalidNonceErr : Except PyError JVal) ≠
      .error invalidNonceErr := by
  constructor
  · rfl
  · intro h
    exact Except.noConfusion h

/-- C5 as amended: an error that is not an `RPCTimeoutError` propagates
unchanged through `send_tx_and_wait`, and an error that is not an
`InvalidNonce` propagates unchanged through `send_tx_included`; but
`send_tx_included` converts `InvalidNonce` into a `None` return. -/
theorem protocol_error_propagation (e : PyError)
    (hto : e.cls ≠ "RPCTimeoutError") (hin : e.cls ≠ "InvalidNonce")
    (trxHash receiverId : Option String) (polls : Nat → Except PyError JVal) :
    send_tx_and_wait (Except.error e) trxHash receiverId polls = .error e ∧
    send_tx_included (Except.error e : Except PyError JVal) = .error e ∧
    send_tx_included (Except.error invalidNonceErr : Except PyError JVal) = .ok none := by
  refine ⟨?_, ?_, rfl⟩
  · simp [send_tx_and_wait, isInstanceOf, hto]
  · simp [send_tx_included, isInstanceOf, hin]

/-- Witness for the amended C5 at a concrete `InvalidSignature` error. -/
theorem protocol_error_propagation_witness :
    send_tx_and_wait (Except.error { cls := "InvalidSignature", data := .null, errorJson := .null })
        none none (fun _ => Except.ok (JVal.num 0)) =
      .error { cls := "InvalidSignature", data := .null, errorJson := .null } ∧
    send_tx_included (Except.error { cls := "InvalidSignature", data := .null, errorJson := .null } :
        Except PyError JVal) =
      .error { cls := "InvalidSignature", data := .null, errorJson := .null } ∧
    send_tx_included (Except.error invalidNonceErr : Except PyError JVal) = .ok none :=
  protocol_error_propagation { cls := "InvalidSignature", data := .null, errorJson := .null }
    (by simp) (by simp) none none (fun _ => Except.ok (JVal.num 0))

/-- C6: a wait-for-execution submission whose broadcast raises
`RPCTimeoutError` falls back to polling the transaction by hash; when all 6
polling attempts fail, the caller receives
`RPCTimeoutError("Transaction not found")` — a timeout error, not a success
value and not an unhandled exception. -/
theorem send_tx_and_wait_timeout_fallback (e : PyError) (he : e.cls = "RPCTimeoutError")
    (trxHash receiverId : String) (h1 : trxHash ≠ "") (h2 : receiverId ≠ "")
    (polls : Nat → Except PyError JVal)
    (hfail : ∀ i, i < 6 → ∃ err, polls i = .error err) :
    send_tx_and_wait (Except.error e) (some trxHash) (some receiverId) polls =
      .error trxNotFoundError ∧
    trxNotFoundError.cls = "RPCTimeoutError" := by
  refine ⟨?_, rfl⟩
  have ht1 : pyTruthy (some trxHash) = true := by
    simp only [pyTruthy, Bool.not_eq_true']
    cases hc : trxHash.isEmpty
    · rfl
    · exact absurd ((String.isEmpty_iff trxHash).mp hc) h1
  have ht2 : pyTruthy (some receiverId) = true := by
    simp only [pyTruthy, Bool.not_eq_true']
    cases hc : receiverId.isEmpty
    · rfl
    · exact absurd ((String.isEmpty_iff receiverId).mp hc) h2
  have hinst : isInstanceOf e "RPCTimeoutError" = true := by
    simp [isInstanceOf, he]
  simp only [send_tx_and_wait, hinst, ht1, ht2, Bool.and_self, if_true]
  exact wait_for_trx_all_fail polls 6 0 (fun j _ hj => hfail j (by omega))

/-- Witness for C6: concrete timeout error, ids, and six failing polls. -/
theorem send_tx_and_wait_timeout_fallback_witness :
    send_tx_and_wait
        (Except.error { cls := "RPCTimeoutError", data := .null, errorJson := .null } :
          Except PyError JVal)
        (some "8hpXPEq") (some "bob.near")
        (fun _ => Except.error { cls := "InternalError", data := .null, errorJson := .null }) =
      .error trxNotFoundError ∧
    trxNotFoundError.cls = "RPCTimeoutError" :=
  send_tx_and_wait_timeout_fallback { cls := "RPCTimeoutError", data := .null, errorJson := .null }
    rfl "8hpXPEq" "bob.near" (by simp) (by simp)
    (fun _ => Except.error { cls := "InternalError", data := .null, errorJson := .null })
    (fun i _ => ⟨{ cls := "InternalError", data := .null, errorJson := .null }, rfl⟩)

/-! ## Actions and transactions (transactions.py)

Action factory functions from transactions.py.  Public keys are kept in the
representation handed to the factory: base58 decoding of a prefixed string
key is an external primitive (the `base58` package) and does not change which
key the action carries. -/

inductive Action where
  | createAccount
  | deployContract (code : List Nat)
  | functionCall (methodName : String) (args : List Nat) (gas deposit : Nat)
  | transfer (amount : Nat)
  | stake (amount : Nat) (publicKey : String)
  | addFullAccessKey (publicKey : String)
  | addFunctionCallKey (publicKey : String) (allowance : Nat) (receiverId : String)
      (methodNames : List String)
  | deleteKey (publicKey : String)
  | signedDelegate
  | useGlobalContract (contractId : String)
deriving DecidableEq, Repr

/-- Models `transactions.create_create_account_action`. -/
def create_create_account_action : Action := .createAccount

/-- Models `transactions.create_full_access_key_action`:
`AddKeyAction(public_key=pk, access_key=AccessKey(0, FullAccess))`. -/
def create_full_access_key_action (pk : String) : Action := .addFullAccessKey pk

/-- Models `transactions.create_transfer_action`. -/
def create_transfer_action (amount : Nat) : Action := .transfer amount

/-- Models `transactions.create_function_call_action`. -/
def create_function_call_action (methodName : String) (args : List Nat)
    (gas deposit : Nat) : Action := .functionCall methodName args gas deposit

/-- An unsigned transaction as assembled by `sign_and_submit_tx` and handed
to `py_near_primitives.Transaction` (the signing and serialization of the
assembled fields are external primitives).  `key` is the signing key checked
out of the pool; its derived public key goes into the wire transaction. -/
structure Transaction (K : Type) where
  signerId : String
  key : K
  nonce : Nat
  receiverId : String
  actions : List Action
  blockHash : String
deriving DecidableEq, Repr

/-! ## Account state and `Account.sign_and_submit_tx` (account.py) -/

/-- The mutable state of an `Account` that `sign_and_submit_tx` touches:
the configured signer list `self._signers`, the FIFO pool
`self._free_signers` (head is the next `get`), the nonce cache
`self._access_key_nonce` (a `defaultdict(int)`, so an untouched key reads 0),
and the cached latest block hash. -/
structure AccountState (K : Type) where
  accountId : String
  signers : List K
  freeSigners : List K
  accessKeyNonce : K → Nat
  latestBlockHash : String

/-- Result of one `sign_and_submit_tx` call.  `okHash` returns the
transaction hash, identified here by the assembled transaction (the hash is
SHA-256 of its serialization, an external deterministic primitive);
`valueError` is the missing-key guard; `blocked` marks a `get` on an empty
queue, which never resumes. -/
inductive CallResult (K R : Type) where
  | ok : R → CallResult K R
  | okHash : Transaction K → CallResult K R
  | err : PyError → CallResult K R
  | valueError : CallResult K R
  | blocked : CallResult K R

/-- One call of `sign_and_submit_tx`: the outcome, the transactions built and
submitted during the call, and the account state after the call. -/
structure CallTrace (K R : Type) where
  result : CallResult K R
  builtTxs : List (Transaction K)
  state : AccountState K

/-- Models `Account.sign_and_submit_tx`, run to completion in isolation
(concurrent interleaving of the nonce section is modelled separately below).

The call: checks the signer list; takes a key off the free-signer queue and
immediately puts it back; seeds the nonce cache from the on-chain access key
(`onChainNonce`) when the cached value is 0; increments the cached nonce by
one and builds the transaction with it; submits via `send_tx_included` when
`included or nowait` (returning the transaction hash even when the submission
raised `RPCTimeoutError`, which is only logged) and via `send_tx_and_wait`
otherwise; and in the `finally` block puts the key back a second time.
`rpc` is the outcome of the underlying `json_rpc` broadcast, `polls` feeds
the `wait_for_trx` fallback, `txHashStr` is the external
base58(SHA-256(serialization)) primitive producing the hash string passed to
`send_tx_and_wait`. -/
def sign_and_submit_tx [DecidableEq K] (st : AccountState K) (receiverId : String)
    (actions : List Action) (nowait included : Bool) (onChainNonce : Nat)
    (rpc : Except PyError R) (polls : Nat → Except PyError R)
    (txHashStr : Transaction K → String) : CallTrace K R :=
  if st.signers.isEmpty then ⟨.valueError, [], st⟩
  else
    match st.freeSigners with
    | [] => ⟨.blocked, [], st⟩
    | pk :: queueRest =>
        let queue1 := queueRest ++ [pk]
        let inc := included || nowait
        let cached := st.accessKeyNonce pk
        let seeded := if cached = 0 then onChainNonce else cached
        let nonce := seeded + 1
        let tx : Transaction K :=
          { signerId := st.accountId, key := pk, nonce := nonce, receiverId := receiverId,
            actions := actions, blockHash := st.latestBlockHash }
        let stOut : AccountState K :=
          { st with accessKeyNonce := fun k => if k = pk then nonce else st.accessKeyNonce k,
                    freeSigners := queue1 ++ [pk] }
        if inc then
          match send_tx_included rpc with
          | .ok _ => ⟨.okHash tx, [tx], stOut⟩
          | .error e =>
              if isInstanceOf e "RPCTimeoutError" then ⟨.okHash tx, [tx], stOut⟩
              else ⟨.err e, [tx], stOut⟩
        else
          match send_tx_and_wait rpc (some (txHashStr tx)) (some receiverId) polls with
          | .ok r => ⟨.ok r, [tx], stOut⟩
          | .error e => ⟨.err e, [tx], stOut⟩

/-- Models `Account.create_account`: assembles the three actions
CreateAccount, AddKey(full access), Transfer and submits them through a
single `sign_and_submit_tx` call. -/
def create_account [DecidableEq K] (st : AccountState K) (newAccountId : String)
    (publicKey : String) (initialBalance : Nat) (nowait : Bool) (onChainNonce : Nat)
    (rpc : Except PyError R) (polls : Nat → Except PyError R)
    (txHashStr : Transaction K → String) : CallTrace K R :=
  sign_and_submit_tx st newAccountId
    [create_create_account_action, create_full_access_key_action publicKey,
     create_transfer_action initialBalance]
    nowait false onChainNonce rpc polls txHashStr

lemma isEmpty_false_of_ne_nil {K : Type} {l : List K} (h : l ≠ []) : l.isEmpty = false := by
  cases l with
  | nil => exact absurd rfl h
  | cons a t => rfl

lemma sign_and_submit_tx_builtTxs {K R : Type} [DecidableEq K]
    (st : AccountState K) (receiverId : String) (actions : List Action)
    (nowait included : Bool) (onChainNonce : Nat) (rpc : Except PyError R)
    (polls : Nat → Except PyError R) (txHashStr : Transaction K → String)
    (pk : K) (rest : List K) (hsig : st.signers ≠ [])
    (hq : st.freeSigners = pk :: rest) :
    (sign_and_submit_tx st receiverId actions nowait included onChainNonce rpc polls
        txHashStr).builtTxs =
      [{ signerId := st.accountId, key := pk,
         nonce := (if st.accessKeyNonce pk = 0 then onChainNonce
                   else st.accessKeyNonce pk) + 1,
         receiverId := receiverId, actions := actions,
         blockHash := st.latestBlockHash }] := by
  unfold sign_and_submit_tx
  rw [isEmpty_false_of_ne_nil hsig, hq]
  simp only [Bool.false_eq_true, if_false]
  split
  · split
    · rfl
    · split <;> rfl
  · split <;> rfl

lemma sign_and_submit_tx_state {K R : Type} [DecidableEq K]
    (st : AccountState K) (receiverId : String) (actions : List Action)
    (nowait included : Bool) (onChainNonce : Nat) (rpc : Except PyError R)
    (polls : Nat → Except PyError R) (txHashStr : Transaction K → String)
    (pk : K) (rest : List K) (hsig : st.signers ≠ [])
    (hq : st.freeSigners = pk :: rest) :
    (sign_and_submit_tx st receiverId actions nowait included onChainNonce rpc polls
        txHashStr).state =
      { st with
          accessKeyNonce := fun k =>
            if k = pk then (if st.accessKeyNonce pk = 0 then onChainNonce
                            else st.accessKeyNonce pk) + 1
            else st.accessKeyNonce k,
          freeSigners := (rest ++ [pk]) ++ [pk] } := by
  unfold sign_and_submit_tx
  rw [isEmpty_false_of_ne_nil hsig, hq]
  simp only [Bool.false_eq_true, if_false]
  split
  · split
    · rfl
    · split <;> rfl
  · split <;> rfl

/-- C8: every `create_account` call builds exactly one transaction, and its
action list is exactly CreateAccount, AddKey(full access, with the given
public key), Transfer(initial balance), in that order — the operation is
never split across transactions. -/
theorem create_account_one_tx_three_actions {K R : Type} [DecidableEq K]
    (st : AccountState K) (newAccountId publicKey : String) (initialBalance : Nat)
    (nowait : Bool) (onChainNonce : Nat) (rpc : Except PyError R)
    (polls : Nat → Except PyError R) (txHashStr : Transaction K → String)
    (hsig : st.signers ≠ []) (hq : st.freeSigners ≠ []) :
    ∃ tx : Transaction K,
      (create_account st newAccountId publicKey initialBalance nowait onChainNonce
          rpc polls txHashStr).builtTxs = [tx] ∧
      tx.actions = [Action.createAccount, Action.addFullAccessKey publicKey,
        Action.transfer initialBalance] ∧
      tx.receiverId = newAccountId := by
  obtain ⟨pk, rest, hfs⟩ : ∃ pk rest, st.freeSigners = pk :: rest := by
    cases hfs : st.freeSigners with
    | nil => exact absurd hfs hq
    | cons a t => exact ⟨a, t, rfl⟩
  exact ⟨_, sign_and_submit_tx_builtTxs st newAccountId _ nowait false onChainNonce
    rpc polls txHashStr pk rest hsig hfs, rfl, rfl⟩

/-- Witness for C8 on a concrete single-signer account. -/
theorem create_account_one_tx_three_actions_witness :
    ∃ tx : Transaction Nat,
      (create_account (AccountState.mk "alice.near" [0] [0] (fun _ => 0) "h1")
          "sub.alice.near" "ed25519pk" 5 false 10 (Except.ok (0 : Nat))
          (fun _ => Except.ok 0) (fun _ => "h2")).builtTxs = [tx] ∧
      tx.actions = [Action.createAccount, Action.addFullAccessKey "ed25519pk",
        Action.transfer 5] ∧
      tx.receiverId = "sub.alice.near" :=
  create_account_one_tx_three_actions (AccountState.mk "alice.near" [0] [0] (fun _ => 0) "h1")
    "sub.alice.near" "ed25519pk" 5 false 10 (Except.ok (0 : Nat))
    (fun _ => Except.ok 0) (fun _ => "h2") (by simp) (by simp)

/-- C4: after a failed submission the nonce cache keeps the incremented value
— a reserved nonce is consumed, never rolled back — and the used key is back
in the free-signer pool, so the next submission with that key builds its
transaction with the strictly larger next nonce. -/
theorem failed_submission_keeps_nonce {K R : Type} [DecidableEq K]
    (st : AccountState K) (pk : K) (hsg : st.signers = [pk]) (hfree : st.freeSigners = [pk])
    (receiverId : String) (actions : List Action) (nowait included : Bool)
    (onChainNonce : Nat) (rpc : Except PyError R) (polls : Nat → Except PyError R)
    (txHashStr : Transaction K → String) (e : PyError)
    (_hfail : (sign_and_submit_tx st receiverId actions nowait included onChainNonce
        rpc polls txHashStr).result = .err e) :
    (sign_and_submit_tx st receiverId actions nowait included onChainNonce
        rpc polls txHashStr).state.accessKeyNonce pk =
      (if st.accessKeyNonce pk = 0 then onChainNonce else st.accessKeyNonce pk) + 1 ∧
    pk ∈ (sign_and_submit_tx st receiverId actions nowait included onChainNonce
        rpc polls txHashStr).state.freeSigners ∧
    ∀ (receiverId2 : String) (actions2 : List Action) (nowait2 included2 : Bool)
      (onChainNonce2 : Nat) (rpc2 : Except PyError R) (polls2 : Nat → Except PyError R),
      (sign_and_submit_tx
          (sign_and_submit_tx st receiverId actions nowait included onChainNonce
            rpc polls txHashStr).state
          receiverId2 actions2 nowait2 included2 onChainNonce2 rpc2 polls2
          txHashStr).builtTxs =
        [{ signerId := st.accountId, key := pk,
           nonce := ((if st.accessKeyNonce pk = 0 then onChainNonce
                      else st.accessKeyNonce pk) + 1) + 1,
           receiverId := receiverId2, actions := actions2,
           blockHash := st.latestBlockHash }] := by
  have hsig : st.signers ≠ [] := by rw [hsg]; exact List.cons_ne_nil pk []
  have hstate := sign_and_submit_tx_state st receiverId actions nowait included
    onChainNonce rpc polls txHashStr pk [] hsig hfree
  refine ⟨?_, ?_, ?_⟩
  · rw [hstate]; simp
  · rw [hstate]; simp
  · intro receiverId2 actions2 nowait2 included2 onChainNonce2 rpc2 polls2
    have hsig2 : (sign_and_submit_tx st receiverId actions nowait included onChainNonce
        rpc polls txHashStr).state.signers ≠ [] := by
      rw [hstate]; exact hsig
    have hfree2 : (sign_and_submit_tx st receiverId actions nowait included onChainNonce
        rpc polls txHashStr).state.freeSigners = pk :: [pk] := by
      rw [hstate]
      rfl
    rw [sign_and_submit_tx_builtTxs _ receiverId2 actions2 nowait2 included2 onChainNonce2
      rpc2 polls2 txHashStr pk [pk] hsig2 hfree2, hstate]
    simp

/-- Witness for C4: a single-key account, cache uninitialized, on-chain nonce
10; the broadcast raises `InvalidSignature`, so the call fails; the cache
stays at 11, the key is back in the pool, and the next call uses nonce 12. -/
theorem failed_submission_keeps_nonce_witness :
    (sign_and_submit_tx (AccountState.mk "alice.near" [0] [0] (fun _ => 0) "bh") "bob.near"
        [create_transfer_action 1] false false 10
        (Except.error (PyError.mk "InvalidSignature" JVal.null JVal.null) : Except PyError Nat)
        (fun _ => Except.error (PyError.mk "InvalidSignature" JVal.null JVal.null))
        (fun _ => "txh")).state.accessKeyNonce 0 = 11 ∧
    0 ∈ (sign_and_submit_tx (AccountState.mk "alice.near" [0] [0] (fun _ => 0) "bh") "bob.near"
        [create_transfer_action 1] false false 10
        (Except.error (PyError.mk "InvalidSignature" JVal.null JVal.null) : Except PyError Nat)
        (fun _ => Except.error (PyError.mk "InvalidSignature" JVal.null JVal.null))
        (fun _ => "txh")).state.freeSigners ∧
    (sign_and_submit_tx
        (sign_and_submit_tx (AccountState.mk "alice.near" [0] [0] (fun _ => 0) "bh") "bob.near"
          [create_transfer_action 1] false false 10
          (Except.error (PyError.mk "InvalidSignature" JVal.null JVal.null) : Except PyError Nat)
          (fun _ => Except.error (PyError.mk "InvalidSignature" JVal.null JVal.null))
          (fun _ => "txh")).state
        "carol.near" [] false false 0 (Except.ok 0) (fun _ => Except.ok 0)
        (fun _ => "txh")).builtTxs =
      [Transaction.mk "alice.near" 0 12 "carol.near" [] "bh"] := by
  have h := failed_submission_keeps_nonce (AccountState.mk "alice.near" [0] [0] (fun _ => 0) "bh")
    0 rfl rfl "bob.near" [create_transfer_action 1] false false 10
    (Except.error (PyError.mk "InvalidSignature" JVal.null JVal.null) : Except PyError Nat)
    (fun _ => Except.error (PyError.mk "InvalidSignature" JVal.null JVal.null))
    (fun _ => "txh") (PyError.mk "InvalidSignature" JVal.null JVal.null) rfl
  exact ⟨h.1, h.2.1, h.2.2 "carol.near" [] false false 0 (Except.ok 0) (fun _ => Except.ok 0)⟩

/-- C9 fails on the code: `sign_and_submit_tx` puts the checked-out key back
twice — once right after `get` and once in the `finally` block — so after one
completed call the queue holds the single configured key twice, not exactly
once. -/
theorem free_signers_not_exactly_once :
    (sign_and_submit_tx (AccountState.mk "alice.near" [0] [0] (fun _ => 0) "bh") "bob.near"
        [create_transfer_action 1] false false 10 (Except.ok (0 : Nat))
        (fun _ => Except.ok 0) (fun _ => "txh")).state.freeSigners = [0, 0] ∧
    ¬ (sign_and_submit_tx (AccountState.mk "alice.near" [0] [0] (fun _ => 0) "bh") "bob.near"
        [create_transfer_action 1] false false 10 (Except.ok (0 : Nat))
        (fun _ => Except.ok 0) (fun _ => "txh")).state.freeSigners.count 0 = 1 := by
  have h1 : (sign_and_submit_tx (AccountState.mk "alice.near" [0] [0] (fun _ => 0) "bh")
      "bob.near" [create_transfer_action 1] false false 10 (Except.ok (0 : Nat))
      (fun _ => Except.ok 0) (fun _ => "txh")).state.freeSigners = [0, 0] := rfl
  refine ⟨h1, ?_⟩
  rw [h1]
  decide

/-- C9 as amended: each completed `sign_and_submit_tx` call removes exactly
one key from the free-signer queue and puts it back exactly twice (once
immediately after checkout, once in the `finally` block), so the call raises
the queue multiplicity of the used key by one and leaves other keys
untouched. -/
theorem free_signers_returned_twice {K R : Type} [DecidableEq K]
    (st : AccountState K) (pk : K) (rest : List K)
    (receiverId : String) (actions : List Action) (nowait included : Bool)
    (onChainNonce : Nat) (rpc : Except PyError R) (polls : Nat → Except PyError R)
    (txHashStr : Transaction K → String)
    (hsig : st.signers ≠ []) (hq : st.freeSigners = pk :: rest) :
    (sign_and_submit_tx st receiverId actions nowait included onChainNonce rpc polls
        txHashStr).state.freeSigners = (rest ++ [pk]) ++ [pk] ∧
    (sign_and_submit_tx st receiverId actions nowait included onChainNonce rpc polls
        txHashStr).state.freeSigners.count pk = st.freeSigners.count pk + 1 ∧
    ∀ q, q ≠ pk →
      (sign_and_submit_tx st receiverId actions nowait included onChainNonce rpc polls
          txHashStr).state.freeSigners.count q = st.freeSigners.count q := by
  have hstate := sign_and_submit_tx_state st receiverId actions nowait included
    onChainNonce rpc polls txHashStr pk rest hsig hq
  refine ⟨by rw [hstate], ?_, ?_⟩
  · rw [hstate, hq]
    simp [List.count_append, List.count_cons]
  · intro q hqpk
    rw [hstate, hq]
    simp [List.count_append, List.count_cons, hqpk]

/-- Witness for the amended C9 on a two-key pool. -/
theorem free_signers_returned_twice_witness :
    (sign_and_submit_tx (AccountState.mk "alice.near" [7, 8] [7, 8] (fun _ => 0) "bh")
        "bob.near" [create_transfer_action 1] false false 10 (Except.ok (0 : Nat))
        (fun _ => Except.ok 0) (fun _ => "txh")).state.freeSigners = ([8] ++ [7]) ++ [7] ∧
    (sign_and_submit_tx (AccountState.mk "alice.near" [7, 8] [7, 8] (fun _ => 0) "bh")
        "bob.near" [create_transfer_action 1] false false 10 (Except.ok (0 : Nat))
        (fun _ => Except.ok 0) (fun _ => "txh")).state.freeSigners.count 7 =
      (AccountState.mk "alice.near" [7, 8] [7, 8] (fun _ => (0 : Nat)) "bh").freeSigners.count 7
        + 1 ∧
    ∀ q, q ≠ 7 →
      (sign_and_submit_tx (AccountState.mk "alice.near" [7, 8] [7, 8] (fun _ => 0) "bh")
          "bob.near" [create_transfer_action 1] false false 10 (Except.ok (0 : Nat))
          (fun _ => Except.ok 0) (fun _ => "txh")).state.freeSigners.count q =
        (AccountState.mk "alice.near" [7, 8] [7, 8] (fun _ => (0 : Nat)) "bh").freeSigners.count q :=
  free_signers_returned_twice (AccountState.mk "alice.near" [7, 8] [7, 8] (fun _ => 0) "bh")
    7 [8] "bob.near" [create_transfer_action 1] false false 10 (Except.ok (0 : Nat))
    (fun _ => Except.ok 0) (fun _ => "txh") (by simp) rfl

/-! ## Concurrent nonce reservation (account.py, lines 179–182)

The nonce-cache section of `sign_and_submit_tx`,

    if self._access_key_nonce[pk] == 0:
        access_key = await self.get_access_key(pk)
        self._access_key_nonce[pk] = access_key.nonce
    self._access_key_nonce[pk] += 1

runs without any lock: `_lock_by_pk` is created in `startup` but never
acquired anywhere.  asyncio switches tasks only at `await`, so for one key a
task executes two atomic segments: from the `== 0` check up to the
`get_access_key` suspension point, and from its resumption through the
increment (there is no further `await` before the incremented value is read
into the transaction at lines 185–200).  A schedule is the order in which the
event loop runs the ready tasks; `raceStep` executes the next atomic segment
of task `i`. -/

inductive TaskPhase where
  | ready
  | fetching
  | done (usedNonce : Nat)
deriving DecidableEq, Repr

structure RaceState where
  cacheNonce : Nat
  tasks : List TaskPhase
deriving DecidableEq, Repr

/-- Run the next atomic segment of task `i` against the shared nonce cache.
From `ready`: if the cache reads 0, suspend in `get_access_key`; otherwise
increment and reserve in one segment.  From `fetching`: the access-key query
returned the on-chain nonce; overwrite the cache with it, increment, reserve. -/
def raceStep (onChainNonce : Nat) (st : RaceState) (i : Nat) : RaceState :=
  match st.tasks[i]? with
  | some .ready =>
      if st.cacheNonce = 0 then { st with tasks := st.tasks.set i .fetching }
      else { cacheNonce := st.cacheNonce + 1,
             tasks := st.tasks.set i (.done (st.cacheNonce + 1)) }
  | some .fetching =>
      { cacheNonce := onChainNonce + 1,
        tasks := st.tasks.set i (.done (onChainNonce + 1)) }
  | _ => st

/-- Run a schedule of atomic segments. -/
def raceRun (onChainNonce : Nat) (schedule : List Nat) (st : RaceState) : RaceState :=
  schedule.foldl (raceStep onChainNonce) st

/-- C1 fails on the code: two concurrent `sign_and_submit_tx` calls on the
same key, nonce cache uninitialized, on-chain nonce 10.  Under the schedule
where both tasks pass the `== 0` check before either `get_access_key`
returns, both reserve nonce 11: the used nonces are `[11, 11]`, a repeat, and
not the claimed gap-free set `{11, 12}`. -/
theorem concurrent_nonce_duplication :
    raceRun 10 [0, 1, 0, 1] { cacheNonce := 0, tasks := [.ready, .ready] } =
      { cacheNonce := 11, tasks := [.done 11, .done 11] } ∧
    ¬ ([11, 11] : List Nat).Perm [11, 12] := by
  constructor
  · rfl
  · decide

/-! ## Class-level nonce cache (account.py, lines 56–63)

`_access_key_nonce: dict = collections.defaultdict(int)` is a class attribute
of `Account`; `self._access_key_nonce[pk] += 1` reads the attribute and
mutates the dict in place, never rebinding it, and `__init__` sets
`_provider`, `account_id`, `_free_signers`, `_signers` and `_signer_by_pk` on
the instance but never `_access_key_nonce`.  Python attribute lookup falls
back from the instance dict to the class dict, so every `Account` instance
resolves `_access_key_nonce` to the one class-level dict.  The heap maps dict
references to contents; the class dict lives at reference 0. -/

structure PyHeap (K : Type) where
  dicts : Nat → K → Nat

/-- Reference of the class-level dict `Account._access_key_nonce`. -/
def accessKeyNonceClassRef : Nat := 0

/-- An `Account` object: its instance attributes relevant here, plus the
instance-level `_access_key_nonce` slot (`none` = attribute not set on the
instance, lookup falls through to the class). -/
structure AccountObj (K : Type) where
  accountId : String
  signers : List K
  instAccessKeyNonce : Option Nat

/-- Models `Account.__init__`: no instance-level `_access_key_nonce`. -/
def accountInit (K : Type) (accountId : String) (privateKeys : List K) : AccountObj K :=
  { accountId := accountId, signers := privateKeys, instAccessKeyNonce := none }

/-- Python attribute resolution for `self._access_key_nonce`. -/
def resolveNonceDict {K : Type} (o : AccountObj K) : Nat :=
  o.instAccessKeyNonce.getD accessKeyNonceClassRef

/-- Models reading `self._access_key_nonce[pk]` (`defaultdict(int)`). -/
def readNonceThrough {K : Type} (h : PyHeap K) (o : AccountObj K) (pk : K) : Nat :=
  h.dicts (resolveNonceDict o) pk

/-- Models `self._access_key_nonce[pk] += 1`: in-place mutation of the dict
the attribute resolves to. -/
def incrNonceThrough {K : Type} [DecidableEq K] (h : PyHeap K) (o : AccountObj K)
    (pk : K) : PyHeap K :=
  { dicts := fun r k =>
      if r = resolveNonceDict o ∧ k = pk then h.dicts r k + 1 else h.dicts r k }

/-- C10: two `Account` instances built by `__init__` — with any account ids
and key lists — share the class-level nonce cache: an increment for key `pk`
performed through one instance is observed through the other. -/
theorem nonce_cache_process_global {K : Type} [DecidableEq K] (h : PyHeap K)
    (id1 id2 : String) (ks1 ks2 : List K) (pk : K) :
    readNonceThrough (incrNonceThrough h (accountInit K id1 ks1) pk)
        (accountInit K id2 ks2) pk =
      readNonceThrough h (accountInit K id2 ks2) pk + 1 := by
  simp [readNonceThrough, incrNonceThrough, resolveNonceDict, accountInit]

end PyNear
